import Mathlib

/-!
Shallow embedding of the colorbear terminal toolkit core:
the color-detection policy (src/detect.go), the colorize helper
(src/colors.go) and the spinner engine (spinner.go).

Go environment lookups (`os.Getenv`, `runtime.GOOS`, terminal status)
are modelled by an explicit `Env` record threaded through the
functions that consult them; the process-wide `forceColors` override
is passed as an `Option Bool` parameter (nil pointer = `none`).
Go byte lengths (`len` on strings) are modelled by `String.utf8ByteSize`.
-/

namespace Colorbear

/-- The ambient process environment consulted by detect.go:
environment variables, stdout terminal status, and the OS family. -/
structure Env where
  NO_COLOR : String
  CI : String
  TERM : String
  WT_SESSION : String
  stdoutIsCharDevice : Bool
  goos : String
deriving Repr, DecidableEq

/-- Go `strings.Contains` on the characters of a string: auxiliary scan. -/
def containsAux (pat : List Char) : List Char → Bool
  | [] => pat.isPrefixOf []
  | c :: rest => pat.isPrefixOf (c :: rest) || containsAux pat rest

/-- Go `strings.Contains s pat`. -/
def strContains (s pat : String) : Bool :=
  containsAux pat.toList s.toList

/-- detect.go: `noColor = os.Getenv("NO_COLOR") != ""`, captured at init. -/
def noColor (e : Env) : Bool := e.NO_COLOR != ""

/-- detect.go `isTerminal`: stdout mode has the char-device bit. -/
def isTerminal (e : Env) : Bool := e.stdoutIsCharDevice

/-- detect.go `isCI`: `CI` is `"true"` or `"1"`. -/
def isCI (e : Env) : Bool := e.CI == "true" || e.CI == "1"

/-- detect.go `isWindowsColorSupported`: TERM contains "xterm" or
"256color", or WT_SESSION is non-empty. -/
def isWindowsColorSupported (e : Env) : Bool :=
  strContains e.TERM "xterm" || strContains e.TERM "256color" ||
    e.WT_SESSION != ""

/-- detect.go `isColorEnabled`, with the `forceColors` override passed
explicitly (`fc`) and the environment as `e`. Mirrors the source's
short-circuit chain: override, NO_COLOR, TTY, CI, Windows. -/
def isColorEnabled (fc : Option Bool) (e : Env) : Bool :=
  match fc with
  | some b => b
  | none =>
    if noColor e then false
    else if !isTerminal e then false
    else if isCI e then false
    else if e.goos == "windows" then isWindowsColorSupported e
    else true

/-- colors.go `Reset`. -/
def Reset : String := "\x1b[0m"

/-- colors.go `CyanCode`. -/
def CyanCode : String := "\x1b[36m"

/-- colors.go `colorize`: if colors are disabled return the text
unchanged, else append each code in order, then the text, then Reset. -/
def colorize (fc : Option Bool) (e : Env) (text : String)
    (codes : List String) : String :=
  if !isColorEnabled fc e then text
  else codes.foldl (fun r c => r ++ c) "" ++ (text ++ Reset)

/-- Go `len` on a string: the UTF-8 byte length. -/
def goLen (s : String) : Nat := s.utf8ByteSize

/-- `maxInt` from the repository's utility code: larger of two lengths. -/
def maxInt (a b : Nat) : Nat := if a > b then a else b

/-- Go `strings.Repeat " " n`. -/
def spaces (n : Nat) : String := String.mk (List.replicate n ' ')

/-- spinner.go `SpinnerStyle`: the catalog of predefined styles. -/
inductive SpinnerStyle where
  | SpinnerDots
  | SpinnerLine
  | SpinnerArrow
  | SpinnerBounce
  | SpinnerCircle
  | SpinnerSquare
  | SpinnerGrowDots
  | SpinnerPulse
deriving Repr, DecidableEq

/-- spinner.go `getSpinnerFrames`: the frame list of each style.
(The Go switch's `default` arm repeats the dots frames and is
unreachable once the style argument is one of the eight constants.) -/
def getSpinnerFrames : SpinnerStyle → List String
  | .SpinnerDots => ["⠋", "⠙", "⠹", "⠸", "⠼", "⠴", "⠦", "⠧", "⠇", "⠏"]
  | .SpinnerLine => ["|", "/", "-", "\\"]
  | .SpinnerArrow => ["←", "↖", "↑", "↗", "→", "↘", "↓", "↙"]
  | .SpinnerBounce => ["⠁", "⠂", "⠄", "⡀", "⢀", "⠠", "⠐", "⠈"]
  | .SpinnerCircle => ["◐", "◓", "◑", "◒"]
  | .SpinnerSquare => ["◰", "◳", "◲", "◱"]
  | .SpinnerGrowDots => ["⣾", "⣽", "⣻", "⢿", "⡿", "⣟", "⣯", "⣷"]
  | .SpinnerPulse => ["●", "○", "●", "○"]

/-- The `Spinner` struct of spinner.go. The `writer` field is modelled
by the output-event lists the operations return; the buffered `stop`
channel and the mutex are modelled by the atomic system steps below
(every Go access to these fields happens under `s.mu`). `speed` is in
milliseconds. -/
structure Spinner where
  message : String
  frames : List String
  current : Nat
  running : Bool
  color : String
  speed : Nat
  lastOutput : String
deriving Repr, DecidableEq

/-- The functional options of spinner.go, as the four constructors the
library exports. -/
inductive SpinnerOption where
  | WithSpinnerStyle (style : SpinnerStyle)
  | WithSpinnerColor (color : String)
  | WithSpinnerSpeed (speed : Nat)
  | WithCustomFrames (frames : List String)
deriving Repr, DecidableEq

/-- What each functional option does to the spinner under construction. -/
def applyOption (s : Spinner) : SpinnerOption → Spinner
  | .WithSpinnerStyle style => { s with frames := getSpinnerFrames style }
  | .WithSpinnerColor color => { s with color := color }
  | .WithSpinnerSpeed speed => { s with speed := speed }
  | .WithCustomFrames frames => { s with frames := frames }

/-- spinner.go `NewSpinner`: defaults (dots frames, cyan, 60ms, idle),
then the options applied in call order. No validation of the frames. -/
def NewSpinner (message : String) (opts : List SpinnerOption) : Spinner :=
  opts.foldl applyOption
    { message := message
      frames := getSpinnerFrames .SpinnerDots
      current := 0
      running := false
      color := CyanCode
      speed := 60
      lastOutput := "" }

/-- Terminal output events produced by the spinner operations:
raw writes to the writer, and invocations of the success/error
formatting collaborators (`SuccessPrint` / `ErrorPrint`). -/
inductive OutEvent where
  | write (s : String)
  | successPrint (msg : String)
  | errorPrint (msg : String)
deriving Repr, DecidableEq

/-- spinner.go `Spinner.render`: pick `frames[current % len(frames)]`,
advance `current`, build `"\r<frame-or-colorized-frame> <message>"`,
pad with spaces when the previous output was longer, record the new
output. `none` models the Go panic (division by zero) when the frame
list is empty. -/
def render (fc : Option Bool) (e : Env) (s : Spinner) :
    Option (Spinner × String) :=
  if h : 0 < s.frames.length then
    let frame := s.frames.get ⟨s.current % s.frames.length, Nat.mod_lt _ h⟩
    let body := if isColorEnabled fc e then colorize fc e frame [s.color]
                else frame
    let out0 := "\r" ++ body ++ " " ++ s.message
    let out := if goLen s.lastOutput > goLen out0 then
                 out0 ++ spaces (goLen s.lastOutput - goLen out0)
               else out0
    some ({ s with current := s.current + 1, lastOutput := out }, out)
  else none

/-- spinner.go `Spinner.render` iterated `k` times. -/
def renderIter (fc : Option Bool) (e : Env) (s : Spinner) :
    Nat → Option Spinner
  | 0 => some s
  | k + 1 =>
    match renderIter fc e s k with
    | some t => (render fc e t).map Prod.fst
    | none => none

/-- spinner.go `Spinner.Start`, caller side: no-op when already
running, else flip `running` and launch one background task. The
returned number is how many tasks this call launched (0 or 1). -/
def Start (s : Spinner) : Spinner × Nat :=
  if s.running then (s, 0)
  else ({ s with running := true }, 1)

/-- spinner.go `Spinner.Stop`: no-op when idle; else flip `running`
off, overwrite the line with `maxInt (len lastOutput) (len s.message + 10)`
spaces bracketed by carriage returns, and — only for a non-empty
argument — invoke the success formatter with it. -/
def Stop (s : Spinner) (message : String) : Spinner × List OutEvent :=
  if s.running = false then (s, [])
  else
    let s1 := { s with running := false }
    let clearLength := maxInt (goLen s1.lastOutput) (goLen s1.message + 10)
    let evs := [OutEvent.write ("\r" ++ spaces clearLength ++ "\r")]
    if message != "" then (s1, evs ++ [OutEvent.successPrint message])
    else (s1, evs)

/-- spinner.go `Spinner.StopWithError`: like `Stop`, but the error
formatter is invoked unconditionally, even for an empty message. -/
def StopWithError (s : Spinner) (message : String) :
    Spinner × List OutEvent :=
  if s.running = false then (s, [])
  else
    let s1 := { s with running := false }
    let clearLength := maxInt (goLen s1.lastOutput) (goLen s1.message + 10)
    (s1, [OutEvent.write ("\r" ++ spaces clearLength ++ "\r"),
          OutEvent.errorPrint message])

/-- spinner.go `Spinner.UpdateMessage`: replace `message` under the lock. -/
def UpdateMessage (s : Spinner) (message : String) : Spinner :=
  { s with message := message }

/-- Projection: the message of a success-formatter invocation. -/
def successOf : OutEvent → Option String
  | .successPrint m => some m
  | _ => none

/-- Projection: the message of an error-formatter invocation. -/
def errorOf : OutEvent → Option String
  | .errorPrint m => some m
  | _ => none

/-- Number of space characters in a string. -/
def countSpaces (s : String) : Nat :=
  (s.toList.filter (fun c => c = ' ')).length

/-- Projection: the space count of a raw write event. -/
def writtenSpaces : OutEvent → Option Nat
  | .write s => some (countSpaces s)
  | _ => none

/-- A spinner together with the number of live background tasks it
owns. Every Go operation on the spinner takes `s.mu` around its check
and flip of `running`, so each operation is one atomic step of this
system; the interleaving of concurrent callers is the choice of the
operation list. -/
structure SpinSys where
  sp : Spinner
  tasks : Nat
deriving Repr, DecidableEq

/-- A freshly constructed spinner owns no background task. -/
def initSys (s : Spinner) : SpinSys := { sp := s, tasks := 0 }

/-- The atomic operations callers may interleave on a spinner. -/
inductive SpinOp where
  | startOp
  | stopOp (msg : String)
  | stopErrOp (msg : String)
  | updateOp (msg : String)
  | renderOp
deriving Repr, DecidableEq

/-- One atomic step: `Start` launches a task only when it flips
`running`; `Stop`/`StopWithError` terminate the task (via the stop
channel) only when the spinner was running; a render tick only happens
while the task is alive. -/
def sysStep (fc : Option Bool) (e : Env) (y : SpinSys) : SpinOp → SpinSys
  | .startOp =>
    let p := Start y.sp
    { sp := p.1, tasks := y.tasks + p.2 }
  | .stopOp msg =>
    { sp := (Stop y.sp msg).1,
      tasks := if y.sp.running then y.tasks - 1 else y.tasks }
  | .stopErrOp msg =>
    { sp := (StopWithError y.sp msg).1,
      tasks := if y.sp.running then y.tasks - 1 else y.tasks }
  | .updateOp msg => { y with sp := UpdateMessage y.sp msg }
  | .renderOp =>
    if y.sp.running then
      match render fc e y.sp with
      | some (t, _) => { y with sp := t }
      | none => y
    else y

/-- Run a list of atomic steps. -/
def sysRun (fc : Option Bool) (e : Env) (y : SpinSys) :
    List SpinOp → SpinSys
  | [] => y
  | op :: ops => sysRun fc e (sysStep fc e y op) ops

/-- The task-ownership invariant: one live task exactly while running. -/
def taskInv (y : SpinSys) : Prop :=
  y.tasks = if y.sp.running then 1 else 0

/-- A plain environment for concrete instantiations. -/
def demoEnv : Env :=
  { NO_COLOR := ""
    CI := ""
    TERM := "xterm-256color"
    WT_SESSION := ""
    stdoutIsCharDevice := true
    goos := "linux" }

/-- A running spinner with an empty stored message and no rendered
output yet: the state right after `Start` on `NewSpinner ""`. -/
def cexSpinner : Spinner :=
  { message := ""
    frames := ["|"]
    current := 0
    running := true
    color := CyanCode
    speed := 60
    lastOutput := "" }

/-- A three-frame custom spinner for cycling instantiations. -/
def demoSpinner3 : Spinner :=
  NewSpinner "Loading" [SpinnerOption.WithCustomFrames ["a", "b", "c"]]

end Colorbear

namespace Colorbear

theorem foldl_append_eq_join (codes : List String) (init : String) :
    codes.foldl (fun r c => r ++ c) init = init ++ String.join codes := by
  induction codes generalizing init with
  | nil => simp [String.join]
  | cons c cs ih =>
    show cs.foldl (fun r c => r ++ c) (init ++ c) = _
    rw [ih]
    show init ++ c ++ String.join cs = init ++ String.join (c :: cs)
    have : String.join (c :: cs) = c ++ String.join cs := by
      show (c :: cs).foldl (fun r s => r ++ s) "" = _
      show cs.foldl (fun r s => r ++ s) ("" ++ c) = _
      rw [ih]
      simp
    rw [this, String.append_assoc]

/-- C1: `isColorEnabled` returns true exactly when the override is set
to true, or the override is unset AND NO_COLOR is absent AND stdout is
a terminal AND no CI signal AND (not Windows OR a Windows ANSI signal:
TERM contains "xterm" or "256color", or WT_SESSION non-empty). -/
theorem isColorEnabled_spec (fc : Option Bool) (e : Env) :
    isColorEnabled fc e = true ↔
      fc = some true ∨
      (fc = none ∧ e.NO_COLOR = "" ∧ e.stdoutIsCharDevice = true ∧
        ¬(e.CI = "true" ∨ e.CI = "1") ∧
        (e.goos ≠ "windows" ∨
          strContains e.TERM "xterm" = true ∨
          strContains e.TERM "256color" = true ∨
          e.WT_SESSION ≠ "")) := by
  cases fc with
  | some b =>
    cases b <;> simp [isColorEnabled]
  | none =>
    simp only [isColorEnabled, noColor, isTerminal, isCI,
      isWindowsColorSupported]
    by_cases h1 : e.NO_COLOR = ""
    · by_cases h2 : e.stdoutIsCharDevice = true
      · by_cases h3 : e.CI = "true"
        · simp [h1, h2, h3]
        · by_cases h4 : e.CI = "1"
          · simp [h1, h2, h3, h4]
          · by_cases h5 : e.goos = "windows"
            · by_cases h6 : strContains e.TERM "xterm" = true
              · simp [h1, h2, h3, h4, h5, h6]
              · by_cases h7 : strContains e.TERM "256color" = true
                · simp [h1, h2, h3, h4, h5, h6, h7]
                · by_cases h8 : e.WT_SESSION = ""
                  · simp [h1, h2, h3, h4, h5, h6, h7, h8]
                  · simp [h1, h2, h3, h4, h5, h6, h7, h8]
            · simp [h1, h2, h3, h4, h5]
      · have h2' : e.stdoutIsCharDevice = false := by
          cases h : e.stdoutIsCharDevice
          · rfl
          · exact absurd h h2
        simp [h1, h2']
    · simp [h1]

theorem Stop_fst (s : Spinner) (msg : String) :
    (Stop s msg).1 = { s with running := false } := by
  unfold Stop
  cases h : s.running with
  | false =>
    simp only [h, if_pos rfl]
    cases s with
    | mk m f c r col sp lo =>
      simp only at h
      subst h
      rfl
  | true =>
    simp only [h]
    rw [if_neg (by simp)]
    split <;> rfl

theorem StopWithError_fst (s : Spinner) (msg : String) :
    (StopWithError s msg).1 = { s with running := false } := by
  unfold StopWithError
  cases h : s.running with
  | false =>
    simp only [h, if_pos rfl]
    cases s with
    | mk m f c r col sp lo =>
      simp only at h
      subst h
      rfl
  | true =>
    simp only [h]
    rw [if_neg (by simp)]

theorem render_some_running {fc : Option Bool} {e : Env} {s t : Spinner}
    {w : String} (h : render fc e s = some (t, w)) :
    t.running = s.running := by
  unfold render at h
  split at h
  · rw [Option.some.injEq, Prod.mk.injEq] at h
    rw [← h.1]
  · exact absurd h (by simp)

theorem foldl_applyOption_running (s : Spinner)
    (opts : List SpinnerOption) :
    (opts.foldl applyOption s).running = s.running := by
  induction opts generalizing s with
  | nil => rfl
  | cons o os ih =>
    show (os.foldl applyOption (applyOption s o)).running = s.running
    rw [ih]
    cases o <;> rfl

theorem NewSpinner_running (msg : String) (opts : List SpinnerOption) :
    (NewSpinner msg opts).running = false := by
  unfold NewSpinner
  rw [foldl_applyOption_running]

theorem startOp_sp_running (fc : Option Bool) (e : Env) (y : SpinSys) :
    (sysStep fc e y SpinOp.startOp).sp.running = true := by
  unfold sysStep Start
  by_cases h : y.sp.running
  · simp [h]
  · simp [h]

theorem taskInv_step (fc : Option Bool) (e : Env) (y : SpinSys)
    (hy : taskInv y) (op : SpinOp) : taskInv (sysStep fc e y op) := by
  unfold taskInv at hy ⊢
  cases op with
  | startOp =>
    unfold sysStep Start
    by_cases h : y.sp.running
    · simp [h] at hy ⊢
      exact hy
    · simp [h] at hy ⊢
      exact hy
  | stopOp msg =>
    simp only [sysStep, Stop_fst]
    by_cases h : y.sp.running
    · simp [h] at hy ⊢
      omega
    · simp [h] at hy ⊢
      exact hy
  | stopErrOp msg =>
    simp only [sysStep, StopWithError_fst]
    by_cases h : y.sp.running
    · simp [h] at hy ⊢
      omega
    · simp [h] at hy ⊢
      exact hy
  | updateOp msg =>
    simp only [sysStep, UpdateMessage]
    exact hy
  | renderOp =>
    simp only [sysStep]
    by_cases h : y.sp.running
    · simp only [if_pos h]
      cases hr : render fc e y.sp with
      | none => exact hy
      | some p =>
        cases p with
        | mk t w =>
          show y.tasks = if t.running = true then 1 else 0
          rw [render_some_running hr]
          exact hy
    · simp [h] at hy ⊢
      exact hy

theorem taskInv_run (fc : Option Bool) (e : Env) (y : SpinSys)
    (hy : taskInv y) (ops : List SpinOp) :
    taskInv (sysRun fc e y ops) := by
  induction ops generalizing y with
  | nil => exact hy
  | cons op ops ih =>
    exact ih (sysStep fc e y op) (taskInv_step fc e y hy op)

/-- C2: with the policy enabled, `colorize text codes` is the
concatenation of all codes in order, then the text, then a single
Reset; with the policy disabled it is the text exactly. -/
theorem colorize_spec (fc : Option Bool) (e : Env) (text : String)
    (codes : List String) :
    colorize fc e text codes =
      if isColorEnabled fc e then String.join codes ++ text ++ Reset
      else text := by
  unfold colorize
  cases h : isColorEnabled fc e
  · simp [h]
  · simp only [h, Bool.not_true, if_true, if_false, Bool.false_eq_true]
    rw [foldl_append_eq_join]
    simp [String.append_assoc]

/-- C3 counterexample: on a running spinner whose stored message is
empty and whose last output is empty, `Stop "x"` overwrites the line
with exactly 10 spaces, which is fewer than
`maxInt (last rendered width) (len "x" + 10) = 11`: the clear width is
computed from the spinner's stored message field, not from the
argument passed to `Stop`. -/
theorem Stop_clear_width_cex :
    cexSpinner.running = true ∧
    (Stop cexSpinner "x").2.filterMap writtenSpaces = [10] ∧
    10 < maxInt (goLen cexSpinner.lastOutput) (goLen "x" + 10) := by
  refine ⟨rfl, ?_, by decide⟩
  decide

/-- C3 (amended): when `Stop msg` is called on a running spinner, its
first output event overwrites the current line with exactly
`maxInt (last rendered width) (len of the stored message field + 10)`
spaces, bracketed by carriage returns. -/
theorem Stop_clear_spec (s : Spinner) (msg : String)
    (h : s.running = true) :
    (Stop s msg).2.head? =
      some (OutEvent.write
        ("\r" ++ spaces (maxInt (goLen s.lastOutput) (goLen s.message + 10))
          ++ "\r")) := by
  unfold Stop
  rw [if_neg (by simp [h])]
  split <;> rfl

/-- Witness for the amended C3 at a concrete running spinner. -/
theorem Stop_clear_spec_witness :
    cexSpinner.running = true ∧
    (Stop cexSpinner "done").2.head? =
      some (OutEvent.write
        ("\r" ++ spaces (maxInt (goLen cexSpinner.lastOutput)
          (goLen cexSpinner.message + 10)) ++ "\r")) :=
  ⟨rfl, Stop_clear_spec cexSpinner "done" rfl⟩

/-- C4: `Stop msg` invokes the success formatter exactly when the
spinner was running and `msg` is non-empty, and then exactly once with
`msg`; it always leaves `running = false`; on an idle spinner it emits
no output at all and leaves the state unchanged. -/
theorem Stop_success_spec (s : Spinner) (msg : String) :
    (Stop s msg).2.filterMap successOf =
      (if s.running = true ∧ msg ≠ "" then [msg] else []) ∧
    (Stop s msg).1 = { s with running := false } ∧
    ((Stop s msg).2 = [] ↔ s.running = false) := by
  refine ⟨?_, Stop_fst s msg, ?_⟩
  · unfold Stop
    cases h : s.running with
    | false => simp [h]
    | true =>
      rw [if_neg (by simp [h])]
      by_cases hm : msg = ""
      · subst hm
        simp [successOf]
      · rw [if_pos (by simp [hm])]
        simp [h, hm, successOf, writtenSpaces, List.filterMap]
  · unfold Stop
    cases h : s.running with
    | false => simp [h]
    | true =>
      rw [if_neg (by simp [h])]
      split <;> simp [h]

/-- C5: `StopWithError msg` on a running spinner invokes the error
formatter exactly once with `msg` and never the success formatter,
even when `msg` is empty. -/
theorem StopWithError_spec (s : Spinner) (msg : String)
    (h : s.running = true) :
    (StopWithError s msg).2.filterMap errorOf = [msg] ∧
    (StopWithError s msg).2.filterMap successOf = [] := by
  unfold StopWithError
  rw [if_neg (by simp [h])]
  exact ⟨by simp [errorOf, List.filterMap], by simp [successOf, List.filterMap]⟩

/-- Witness for C5 at a concrete running spinner, with the empty
message corner case. -/
theorem StopWithError_spec_witness :
    cexSpinner.running = true ∧
    ((StopWithError cexSpinner "").2.filterMap errorOf = [""] ∧
     (StopWithError cexSpinner "").2.filterMap successOf = []) :=
  ⟨rfl, StopWithError_spec cexSpinner "" rfl⟩

/-- C6: starting from any constructed spinner, after any interleaving
of atomic Start/Stop/StopWithError/UpdateMessage/render steps the
spinner owns at most one background task, and calling `Start` twice in
a row leaves exactly one active background task. -/
theorem Start_twice_single_task (fc : Option Bool) (e : Env)
    (msg : String) (opts : List SpinnerOption) (ops : List SpinOp) :
    (sysRun fc e (initSys (NewSpinner msg opts)) ops).tasks ≤ 1 ∧
    (sysStep fc e (sysStep fc e (sysRun fc e (initSys (NewSpinner msg opts))
      ops) SpinOp.startOp) SpinOp.startOp).tasks = 1 := by
  have h0 : taskInv (initSys (NewSpinner msg opts)) := by
    unfold taskInv initSys
    simp [NewSpinner_running]
  have h1 := taskInv_run fc e _ h0 ops
  constructor
  · unfold taskInv at h1
    split at h1 <;> omega
  · have h2 := taskInv_step fc e _ h1 SpinOp.startOp
    have h3 := taskInv_step fc e _ h2 SpinOp.startOp
    unfold taskInv at h3
    rw [startOp_sp_running] at h3
    simpa using h3

theorem render_step (fc : Option Bool) (e : Env) (t : Spinner)
    (h2 : 0 < t.frames.length) :
    ∃ u w, render fc e t = some (u, w) ∧ u.current = t.current + 1 ∧
      u.frames = t.frames := by
  unfold render
  rw [dif_pos h2]
  exact ⟨_, _, rfl, rfl, rfl⟩

/-- C7: on any spinner with a non-empty frame list, a render step is
defined, advances the frame counter by exactly 1 and keeps the frame
list; the selected index `current % len frames` is always in bounds;
and after `k` render steps the counter is exactly `current + k`, so
the selected indices cycle through `(current + k) % len frames`. -/
theorem render_frame_cycle (fc : Option Bool) (e : Env) (s : Spinner)
    (h : 0 < s.frames.length) :
    (∃ t w, render fc e s = some (t, w) ∧ t.current = s.current + 1 ∧
      t.frames = s.frames) ∧
    s.current % s.frames.length < s.frames.length ∧
    (∀ k, ∃ t, renderIter fc e s k = some t ∧ t.current = s.current + k ∧
      t.frames = s.frames ∧
      t.current % t.frames.length = (s.current + k) % s.frames.length) := by
  refine ⟨?_, Nat.mod_lt _ h, ?_⟩
  · exact render_step fc e s h
  · intro k
    induction k with
    | zero => exact ⟨s, rfl, rfl, rfl, rfl⟩
    | succ n ih =>
      obtain ⟨t, ht, hc, hf, _⟩ := ih
      have h2 : 0 < t.frames.length := hf ▸ h
      obtain ⟨u, w, hu, huc, huf⟩ := render_step fc e t h2
      refine ⟨u, ?_, ?_, ?_, ?_⟩
      · show (match renderIter fc e s n with
              | some t => (render fc e t).map Prod.fst
              | none => none) = some u
        rw [ht]
        show (render fc e t).map Prod.fst = some u
        rw [hu]
        rfl
      · rw [huc, hc, Nat.add_assoc]
      · rw [huf, hf]
      · rw [huf, hf, huc, hc, Nat.add_assoc]

/-- Witness for C7 at a concrete three-frame custom spinner. -/
theorem render_frame_cycle_witness :
    0 < demoSpinner3.frames.length ∧
    ((∃ t w, render none demoEnv demoSpinner3 = some (t, w) ∧
        t.current = demoSpinner3.current + 1 ∧
        t.frames = demoSpinner3.frames) ∧
      demoSpinner3.current % demoSpinner3.frames.length <
        demoSpinner3.frames.length ∧
      (∀ k, ∃ t, renderIter none demoEnv demoSpinner3 k = some t ∧
        t.current = demoSpinner3.current + k ∧
        t.frames = demoSpinner3.frames ∧
        t.current % t.frames.length =
          (demoSpinner3.current + k) % demoSpinner3.frames.length)) :=
  ⟨by decide, render_frame_cycle none demoEnv demoSpinner3 (by decide)⟩

/-- C9: `UpdateMessage` replaces the message field and leaves frames,
frame index, running flag, color, speed and last rendered width
unchanged, in any state. -/
theorem UpdateMessage_spec (s : Spinner) (text : String) :
    UpdateMessage s text =
      { message := text
        frames := s.frames
        current := s.current
        running := s.running
        color := s.color
        speed := s.speed
        lastOutput := s.lastOutput } := rfl

/-- C10: neither `NewSpinner` nor `WithCustomFrames` validates the
frame list: an empty custom list passes through construction, and a
render step is well-defined exactly when the frame list is non-empty,
so a spinner built with empty custom frames has an undefined
(panicking) render step. -/
theorem render_empty_frames_undefined (fc : Option Bool) (e : Env)
    (msg : String) (s : Spinner) :
    (NewSpinner msg [SpinnerOption.WithCustomFrames []]).frames = [] ∧
    ((render fc e s).isSome = true ↔ 0 < s.frames.length) ∧
    render fc e (NewSpinner msg [SpinnerOption.WithCustomFrames []]) =
      none := by
  refine ⟨rfl, ?_, ?_⟩
  · unfold render
    by_cases h : 0 < s.frames.length
    · rw [dif_pos h]
      simp [h]
    · rw [dif_neg h]
      simp [h]
  · unfold render
    rw [dif_neg]
    intro h
    exact absurd h (by simp [NewSpinner, applyOption])

end Colorbear
